import Mathlib

/-! Minion tracker: the stat-record store.

A shallow embedding of `go-htmx/models.go`, `go-htmx/db.go` and the request
handlers of `go-htmx/main.go` that create a minion or address one by id.

The SQLite table `minions` is a list of rows together with the counter that
`AUTOINCREMENT` keeps in `sqlite_sequence`.  Every operation of `db.go` takes
the table as an argument and hands the table after the statement back, next to
what the Go function returns.

Integer columns and Go `int`/`int64` values are `Int`.  The only arithmetic the
store performs is `hp + ?` inside `MAX(0, MIN(hp + ?, max_hp))`.  SQLite leaves
64-bit arithmetic for floating point when that sum overflows, and the value it
then compares lies beyond every 64-bit integer on the side of the overflow, so
the clamp selects the same 64-bit operand as exact arithmetic does; the sum is
therefore taken in `Int`.  The one place where Go itself computes on an `int`,
the negation in `handleDmg`, wraps at 64 bits.

Templates are not executed: a response records which template is run on which
record.
-/

namespace MinionTracker

/-! ## Data model (`models.go`) -/

/-- Minion is a spawned minion's stat block: the Go struct `Minion`, which is
also one row of the table `minions`. -/
structure Minion where
  ID : Int
  Name : String
  HP : Int
  MaxHP : Int
  AC : Int
  Attack : Int
  Damage : String
  Notes : String
  Active : Bool
deriving DecidableEq, Repr

/-- Errors the store hands to its callers: `sql.ErrNoRows` from `QueryRow.Scan`
and `SQLITE_FULL` from an `INSERT` that finds the rowid space exhausted. -/
inductive DbError where
  | errNoRows
  | full
deriving DecidableEq, Repr

deriving instance DecidableEq for Except

/-- The table `minions` (rows in storage order) and the `sqlite_sequence`
counter of its `AUTOINCREMENT` key. -/
structure Store where
  rows : List Minion
  seq : Int
deriving DecidableEq, Repr

/-- The table right after `CREATE TABLE`: no row, counter at zero. -/
def emptyStore : Store := { rows := [], seq := 0 }

/-- The constraint `id INTEGER PRIMARY KEY`: no two rows share an id. -/
def Store.Keyed (s : Store) : Prop := (s.rows.map Minion.ID).Nodup

instance (s : Store) : Decidable s.Keyed := by
  unfold Store.Keyed; infer_instance

/-- The largest rowid SQLite can assign, `2^63 - 1`. -/
def MAX_ROWID : Int := 9223372036854775807

/-! ## SQL statements -/

/-- The largest rowid present in the table, `none` for an empty table. -/
def largestRowid : List Minion → Option Int
  | [] => none
  | r :: rs =>
    match largestRowid rs with
    | none => some r.ID
    | some k => some (max r.ID k)

/-- The rowid an `INSERT` into an `AUTOINCREMENT` table receives: one more than
the largest rowid in the table (1 for an empty table), raised to one more than
the `sqlite_sequence` counter; `SQLITE_FULL` once either has reached
`MAX_ROWID`. -/
def newRowid (s : Store) : Except DbError Int :=
  match largestRowid s.rows with
  | none =>
    if s.seq = MAX_ROWID then .error .full else .ok (max 1 (s.seq + 1))
  | some k =>
    if MAX_ROWID ≤ k ∨ s.seq = MAX_ROWID then .error .full
    else .ok (max (k + 1) (s.seq + 1))

/-- The statement `UPDATE minions SET ... WHERE id = ?`: every row whose id is
`id` is replaced by `set` of it, every other row is kept. -/
def updateWhereId (s : Store) (id : Int) (set : Minion → Minion) : Store :=
  { s with rows := s.rows.map (fun r => if r.ID = id then set r else r) }

/-! ## Store operations (`db.go`) -/

/-- Go `createMinion`: inserts the fields of `m` other than `ID` and `Active`
with `active = 1` under a new rowid, and writes that rowid into `m.ID`.
Returns the table, the caller's record `m` as the call leaves it, and the
error. -/
def createMinion (s : Store) (m : Minion) : Store × Minion × Option DbError :=
  match newRowid s with
  | .error e => (s, m, some e)
  | .ok v =>
    ({ rows := s.rows ++
        [{ ID := v, Name := m.Name, HP := m.HP, MaxHP := m.MaxHP, AC := m.AC,
           Attack := m.Attack, Damage := m.Damage, Notes := m.Notes, Active := true }],
       seq := v },
     { m with ID := v }, none)

/-- Go `getMinion`: the row `SELECT ... WHERE id = ?` yields, `sql.ErrNoRows`
when there is none.  (The zero-valued record Go returns next to the error is
dropped.) -/
def getMinion (s : Store) (id : Int) : Except DbError Minion :=
  match s.rows.find? (fun r => decide (r.ID = id)) with
  | some r => .ok r
  | none => .error .errNoRows

/-- Go `listActiveMinions`: `SELECT ... WHERE active = 1 ORDER BY id`. -/
def listActiveMinions (s : Store) : Except DbError (List Minion) :=
  .ok ((s.rows.filter (fun r => r.Active)).insertionSort (fun a b => a.ID ≤ b.ID))

/-- Go `updateMinion`: overwrites every column but `id` of the row `m.ID`. -/
def updateMinion (s : Store) (m : Minion) : Store × Option DbError :=
  (updateWhereId s m.ID (fun r =>
    { r with Name := m.Name, HP := m.HP, MaxHP := m.MaxHP, AC := m.AC,
             Attack := m.Attack, Damage := m.Damage, Notes := m.Notes,
             Active := m.Active }), none)

/-- Go `deleteMinion`: `UPDATE minions SET active = 0 WHERE id = ?`. -/
def deleteMinion (s : Store) (id : Int) : Store × Option DbError :=
  (updateWhereId s id (fun r => { r with Active := false }), none)

/-- Go `adjustHP`: `UPDATE minions SET hp = MAX(0, MIN(hp + ?, max_hp))
WHERE id = ?`, then `getMinion(id)` on the table the update left. -/
def adjustHP (s : Store) (id : Int) (delta : Int) : Store × Except DbError Minion :=
  let s' := updateWhereId s id (fun r => { r with HP := max 0 (min (r.HP + delta) r.MaxHP) })
  (s', getMinion s' id)

/-! ## Request handling (`main.go`) -/

/-- What a handler writes: a template executed on a record, or `http.Error`
with a status and either a fixed text or the text of a store error. -/
inductive Response where
  | page (template : String) (data : Minion)
  | failText (status : Nat) (body : String)
  | failErr (status : Nat) (err : DbError)
deriving DecidableEq, Repr

/-- Go `handleCreate`.  `form` is `r.FormValue` after `r.ParseForm()`, and
`atoi` is `strconv.Atoi` with its error discarded (`hp, _ := ...`).  The record
literal sets neither `ID` nor `Active`, which Go zero-initialises. -/
def handleCreate (atoi : String → Int) (s : Store) (form : String → String) :
    Store × Response :=
  let hp := atoi (form "hp")
  let ac := atoi (form "ac")
  let atk := atoi (form "attack")
  let m : Minion :=
    { ID := 0, Name := form "name", HP := hp, MaxHP := hp, AC := ac, Attack := atk,
      Damage := form "damage", Notes := form "notes", Active := false }
  match createMinion s m with
  | (s', _, some e) => (s', .failErr 500 e)
  | (s', m', none) => (s', .page "minion-row" m')

/-! ## Number parsing and machine integers (Go `strconv`, Go `int`) -/

/-- The errors of Go `strconv`: `ErrSyntax` and `ErrRange`. -/
inductive NumError where
  | errSyntax
  | errRange
deriving DecidableEq, Repr

/-- Go `math.MaxInt64`. -/
def maxInt64 : Int := 9223372036854775807

/-- Go `math.MinInt64`. -/
def minInt64 : Int := -9223372036854775808

/-- The value a 64-bit Go `int` holds after an operation whose exact result is
`x`: two's-complement wrap-around. -/
def wrapInt64 (x : Int) : Int := (x + 9223372036854775808) % 18446744073709551616 - 9223372036854775808

/-- Go `math.MaxUint64`, the `maxVal` of `strconv.ParseUint` for 64 bits. -/
def maxUint64 : Nat := 18446744073709551615

/-- The digit loop of Go `strconv.ParseUint` in base 10 and 64 bits, one
character per step, `n` being the value read so far.  A character that is not
one of `0`..`9` ends the loop with `(0, ErrSyntax)`.  A digit read when
`n >= cutoff` (`cutoff = maxUint64/10 + 1`), or whose addition carries the
value past `maxUint64`, ends it with `(maxUint64, ErrRange)`, and the
characters after it are never looked at. -/
def parseDigits : List Char → Nat → Nat × Option NumError
  | [], n => (n, none)
  | c :: cs, n =>
    if '0' ≤ c ∧ c ≤ '9' then
      if maxUint64 / 10 + 1 ≤ n then (maxUint64, some .errRange)
      else if maxUint64 < n * 10 + (c.toNat - '0'.toNat) then (maxUint64, some .errRange)
      else parseDigits cs (n * 10 + (c.toNat - '0'.toNat))
    else (0, some .errSyntax)

/-- Go `strconv.ParseUint(s, 10, 64)`: `(0, ErrSyntax)` for the empty text,
else the digit loop from 0. -/
def ParseUint (cs : List Char) : Nat × Option NumError :=
  match cs with
  | [] => (0, some .errSyntax)
  | _ :: _ => parseDigits cs 0

/-- Go `strconv.ParseInt(s, 10, 64)`: the empty text is a syntax error; a
leading `+` or `-` is taken off and the rest goes to `ParseUint`, whose syntax
error is returned with value 0; an unsigned value of at least `2^63` without
`-`, or above `2^63` with `-` (also the `maxUint64` of a range error of
`ParseUint`), gives the nearer bound with `ErrRange`. -/
def ParseInt (s : String) : Int × Option NumError :=
  match s.toList with
  | [] => (0, some .errSyntax)
  | c :: cs =>
    let neg := decide (c = '-')
    let body := if c = '+' ∨ c = '-' then cs else c :: cs
    let un := (ParseUint body).1
    if (ParseUint body).2 = some .errSyntax then (0, some .errSyntax)
    else if !neg ∧ 9223372036854775808 ≤ un then (maxInt64, some .errRange)
    else if neg ∧ 9223372036854775808 < un then (minInt64, some .errRange)
    else if neg then (-(un : Int), none)
    else ((un : Int), none)

/-- Go `strconv.Atoi` on a 64-bit platform: the same value and error as
`ParseInt(s, 10, 0)`, which its fast path for short texts agrees with. -/
def Atoi (s : String) : Int × Option NumError := ParseInt s

/-! ## Request handling by id (`main.go`) -/

/-- Go `handleEditForm`; `pathId` is `r.PathValue("id")`. -/
def handleEditForm (s : Store) (pathId : String) : Store × Response :=
  let id := (ParseInt pathId).1
  match getMinion s id with
  | .error _ => (s, .failText 404 "not found")
  | .ok m => (s, .page "minion-edit" m)

/-- Go `handleUpdate`: the existence check, then the record built from the
form with `Active: true`, then `updateMinion`. -/
def handleUpdate (s : Store) (pathId : String) (form : String → String) : Store × Response :=
  let id := (ParseInt pathId).1
  match getMinion s id with
  | .error _ => (s, .failText 404 "not found")
  | .ok _ =>
    let hp := (Atoi (form "hp")).1
    let maxHP := (Atoi (form "max_hp")).1
    let ac := (Atoi (form "ac")).1
    let atk := (Atoi (form "attack")).1
    let m : Minion :=
      { ID := id, Name := form "name", HP := hp, MaxHP := maxHP, AC := ac, Attack := atk,
        Damage := form "damage", Notes := form "notes", Active := true }
    match updateMinion s m with
    | (s', some e) => (s', .failErr 500 e)
    | (s', none) => (s', .page "minion-row" m)

/-- Go `handleView`. -/
def handleView (s : Store) (pathId : String) : Store × Response :=
  let id := (ParseInt pathId).1
  match getMinion s id with
  | .error _ => (s, .failText 404 "not found")
  | .ok m => (s, .page "minion-row" m)

/-- Go `handleHPAdjustForm`. -/
def handleHPAdjustForm (s : Store) (pathId : String) : Store × Response :=
  let id := (ParseInt pathId).1
  match getMinion s id with
  | .error _ => (s, .failText 404 "not found")
  | .ok m => (s, .page "hp-adjust" m)

/-- Go `handleHPCancel`. -/
def handleHPCancel (s : Store) (pathId : String) : Store × Response :=
  let id := (ParseInt pathId).1
  match getMinion s id with
  | .error _ => (s, .failText 404 "not found")
  | .ok m => (s, .page "hp-stat" m)

/-- Go `handleHeal`: `adjustHP(id, amount)`; an error is answered with
`http.Error(w, err.Error(), 500)`. -/
def handleHeal (s : Store) (pathId : String) (form : String → String) : Store × Response :=
  let id := (ParseInt pathId).1
  let amount := (Atoi (form "amount")).1
  match adjustHP s id amount with
  | (s', .error e) => (s', .failErr 500 e)
  | (s', .ok m) => (s', .page "minion-row" m)

/-- Go `handleDmg`: `adjustHP(id, -amount)`, the negation being that of a
64-bit `int`. -/
def handleDmg (s : Store) (pathId : String) (form : String → String) : Store × Response :=
  let id := (ParseInt pathId).1
  let amount := (Atoi (form "amount")).1
  match adjustHP s id (wrapInt64 (-amount)) with
  | (s', .error e) => (s', .failErr 500 e)
  | (s', .ok m) => (s', .page "minion-row" m)

/-- The status a response carries; an executed template is written with 200. -/
def Response.status : Response → Nat
  | .page _ _ => 200
  | .failText st _ => st
  | .failErr st _ => st

/-! ## Examples -/

/-- The record of `TestAdjustHP`: hp 10 of at most 15. -/
def testMinion : Minion :=
  { ID := 0, Name := "Test", HP := 10, MaxHP := 15, AC := 10, Attack := 1,
    Damage := "", Notes := "", Active := false }

/-- The table of `TestAdjustHP` after `createTestMinion`. -/
def testStore : Store := (createMinion emptyStore testMinion).1

/-- The table of `TestAdjustHP` after `updateMinion` has written hp 20 next to
a maximum of 10 into its record. -/
def overfullStore : Store :=
  (updateMinion testStore { testMinion with ID := 1, HP := 20, MaxHP := 10, Active := true }).1

/-- A table whose one record was created with hp and maximum both -5, as
`handleCreate` does for a posted `hp=-5`. -/
def negativeStore : Store :=
  (createMinion emptyStore { testMinion with HP := -5, MaxHP := -5 }).1

/-- The two records of `TestListActiveMinions`, the second soft-deleted, and a
third created after the deletion. -/
def listStore : Store :=
  let s1 := (createMinion emptyStore { testMinion with Name := "Active" }).1
  let s2 := (createMinion s1 { testMinion with Name := "Inactive", HP := 5, MaxHP := 5 }).1
  let s3 := (deleteMinion s2 2).1
  (createMinion s3 { testMinion with Name := "Late" }).1

/-- The record `handleCreate` builds from the form of `TestHandleCreate`
(`name=NewGoblin`, `hp=10`, `ac=13`, `attack=4`, `damage=1d6+2`,
`notes=Test notes`). -/
def goblin : Minion :=
  { ID := 0, Name := "NewGoblin", HP := 10, MaxHP := 10, AC := 13, Attack := 4,
    Damage := "1d6+2", Notes := "Test notes", Active := false }

/-- A posted form that holds only `amount`. -/
def amountForm (amount : String) : String → String :=
  fun key => if key = "amount" then amount else ""

/-! ## Lemmas on the statements -/

theorem find?_map_set (rows : List Minion) (id : Int) (set : Minion → Minion)
    (hset : ∀ r, (set r).ID = r.ID) :
    (rows.map (fun r => if r.ID = id then set r else r)).find? (fun r => decide (r.ID = id))
      = (rows.find? (fun r => decide (r.ID = id))).map set := by
  induction rows with
  | nil => rfl
  | cons r rs ih =>
    by_cases h : r.ID = id
    · simp [List.find?, h, hset]
    · simp only [List.map_cons, List.find?, h, if_false, decide_False]
      exact ih

theorem getMinion_updateWhereId (s : Store) (id : Int) (set : Minion → Minion)
    (hset : ∀ r, (set r).ID = r.ID) (r : Minion) (h : getMinion s id = .ok r) :
    getMinion (updateWhereId s id set) id = .ok (set r) := by
  unfold getMinion at h ⊢
  simp only [updateWhereId]
  rw [find?_map_set s.rows id set hset]
  cases hf : s.rows.find? (fun r => decide (r.ID = id)) with
  | none => rw [hf] at h; cases h
  | some x =>
    rw [hf] at h
    cases h
    rfl

theorem getMinion_ok_mem (s : Store) (id : Int) (r : Minion) (h : getMinion s id = .ok r) :
    r ∈ s.rows ∧ r.ID = id := by
  unfold getMinion at h
  cases hf : s.rows.find? (fun r => decide (r.ID = id)) with
  | none => rw [hf] at h; cases h
  | some x =>
    rw [hf] at h
    cases h
    exact ⟨List.mem_of_find?_eq_some hf, by simpa using List.find?_some hf⟩

theorem getMinion_absent (s : Store) (id : Int) (h : ∀ r ∈ s.rows, r.ID ≠ id) :
    getMinion s id = .error .errNoRows := by
  unfold getMinion
  have : s.rows.find? (fun r => decide (r.ID = id)) = none := by
    rw [List.find?_eq_none]
    intro x hx
    simpa using h x hx
  rw [this]

theorem updateWhereId_absent (s : Store) (id : Int) (set : Minion → Minion)
    (h : ∀ r ∈ s.rows, r.ID ≠ id) : updateWhereId s id set = s := by
  unfold updateWhereId
  have : s.rows.map (fun r => if r.ID = id then set r else r) = s.rows := by
    conv_rhs => rw [← List.map_id s.rows]
    apply List.map_congr_left
    intro x hx
    simp [h x hx]
  rw [this]

theorem emptyStore_keyed : emptyStore.Keyed := by decide

theorem updateWhereId_ids (s : Store) (id : Int) (set : Minion → Minion)
    (hset : ∀ r, (set r).ID = r.ID) :
    (updateWhereId s id set).rows.map Minion.ID = s.rows.map Minion.ID := by
  simp only [updateWhereId, List.map_map]
  apply List.map_congr_left
  intro x _
  by_cases h : x.ID = id
  · simp [h, hset]
  · simp [h]

theorem updateWhereId_keyed (s : Store) (id : Int) (set : Minion → Minion)
    (hset : ∀ r, (set r).ID = r.ID) (hk : s.Keyed) : (updateWhereId s id set).Keyed := by
  unfold Store.Keyed at hk ⊢
  rw [updateWhereId_ids s id set hset]
  exact hk

theorem getMinion_of_mem (s : Store) (hk : s.Keyed) (r : Minion) (hr : r ∈ s.rows) :
    getMinion s r.ID = .ok r := by
  unfold Store.Keyed at hk
  unfold getMinion
  generalize s.rows = rows at hk hr
  induction rows with
  | nil => cases hr
  | cons x xs ih =>
    rw [List.map_cons, List.nodup_cons] at hk
    rcases List.mem_cons.mp hr with hx | hx
    · subst hx
      simp [List.find?]
    · have hne : ¬ x.ID = r.ID := by
        intro heq
        exact hk.1 (heq ▸ List.mem_map_of_mem Minion.ID hx)
      simp only [List.find?, hne, decide_False]
      exact ih hk.2 hx

/-! ## Hit-point adjustment -/

/-- C1: when the record stored under `id` has `0 ≤ hp ≤ maxHp`, then for every
`delta` the record `adjustHP id delta` returns, which is also the record stored
under `id` afterwards, has `0 ≤ hp ≤ maxHp` with `maxHp` as before. -/
theorem adjustHP_within_bounds (s : Store) (id delta : Int) (r : Minion)
    (hr : getMinion s id = .ok r) (h0 : 0 ≤ r.HP) (hmax : r.HP ≤ r.MaxHP) :
    ∃ r', (adjustHP s id delta).2 = .ok r' ∧
      getMinion (adjustHP s id delta).1 id = .ok r' ∧
      0 ≤ r'.HP ∧ r'.HP ≤ r'.MaxHP ∧ r'.MaxHP = r.MaxHP := by
  have hg := getMinion_updateWhereId s id
    (fun r => { r with HP := max 0 (min (r.HP + delta) r.MaxHP) }) (fun _ => rfl) r hr
  refine ⟨_, hg, hg, ?_, ?_, rfl⟩
  · exact le_max_left _ _
  · exact max_le (le_trans h0 hmax) (min_le_right _ _)

theorem adjustHP_within_bounds_witness :
    ∃ r', (adjustHP testStore 1 (-50)).2 = .ok r' ∧
      getMinion (adjustHP testStore 1 (-50)).1 1 = .ok r' ∧
      0 ≤ r'.HP ∧ r'.HP ≤ r'.MaxHP ∧ r'.MaxHP = 15 :=
  adjustHP_within_bounds testStore 1 (-50) { testMinion with ID := 1, Active := true }
    (by decide) (by decide) (by decide)

/-- C2: for every id under which a record `r` is stored and every `delta`,
`adjustHP id delta` succeeds, returns `r` with `hp` replaced by
`max 0 (min (hp + delta) maxHp)`, and that is the record `getMinion id` returns
on the table the call leaves. -/
theorem adjustHP_clamps (s : Store) (id delta : Int) (r : Minion)
    (hr : getMinion s id = .ok r) :
    (adjustHP s id delta).2 = .ok { r with HP := max 0 (min (r.HP + delta) r.MaxHP) } ∧
      getMinion (adjustHP s id delta).1 id = (adjustHP s id delta).2 :=
  ⟨getMinion_updateWhereId s id
    (fun r => { r with HP := max 0 (min (r.HP + delta) r.MaxHP) }) (fun _ => rfl) r hr, rfl⟩

theorem adjustHP_clamps_witness :
    (adjustHP testStore 1 100).2 = .ok { testMinion with ID := 1, Active := true, HP := 15 } ∧
      getMinion (adjustHP testStore 1 100).1 1 = (adjustHP testStore 1 100).2 :=
  adjustHP_clamps testStore 1 100 { testMinion with ID := 1, Active := true } (by decide)

/-- C3 (as stated, refuted): the record `updateMinion` left with hp 20 and
maximum 10 comes out of `adjustHP 1 0` with hp 10, returned and stored. -/
theorem adjustHP_zero_changes_overfull :
    (getMinion overfullStore 1).map Minion.HP = .ok 20 ∧
      ((adjustHP overfullStore 1 0).2).map Minion.HP = .ok 10 ∧
      (getMinion (adjustHP overfullStore 1 0).1 1).map Minion.HP = .ok 10 := by
  decide

/-- C3 (amended): when the record stored under `id` has `0 ≤ hp ≤ maxHp`,
`adjustHP id 0` returns that record as it was, and it is still what is stored
under `id`; its hp is the hp before the call. -/
theorem adjustHP_zero_unchanged (s : Store) (id : Int) (r : Minion)
    (hr : getMinion s id = .ok r) (h0 : 0 ≤ r.HP) (hmax : r.HP ≤ r.MaxHP) :
    (adjustHP s id 0).2 = .ok r ∧ getMinion (adjustHP s id 0).1 id = .ok r := by
  have hg := getMinion_updateWhereId s id
    (fun r => { r with HP := max 0 (min (r.HP + 0) r.MaxHP) }) (fun _ => rfl) r hr
  have hhp : max 0 (min (r.HP + 0) r.MaxHP) = r.HP := by
    rw [add_zero, min_eq_left hmax, max_eq_right h0]
  simp only [hhp] at hg
  exact ⟨hg, hg⟩

theorem adjustHP_zero_unchanged_witness :
    (adjustHP testStore 1 0).2 = .ok { testMinion with ID := 1, Active := true } ∧
      getMinion (adjustHP testStore 1 0).1 1 = .ok { testMinion with ID := 1, Active := true } :=
  adjustHP_zero_unchanged testStore 1 { testMinion with ID := 1, Active := true }
    (by decide) (by decide) (by decide)

/-- C4 (as stated, refuted): on the record with hp -5 and maximum -5 the delta
3, which is at least `maxHp - hp = 0`, leaves hp 0 and not the maximum -5. -/
theorem adjustHP_negative_max_not_capped :
    (getMinion negativeStore 1).map (fun r => (r.HP, r.MaxHP)) = .ok (-5, -5) ∧
      ((adjustHP negativeStore 1 3).2).map (fun r => (r.HP, r.MaxHP)) = .ok (0, -5) ∧
      (getMinion (adjustHP negativeStore 1 3).1 1).map (fun r => (r.HP, r.MaxHP))
        = .ok (0, -5) := by
  decide

/-- C4 (amended): when the record stored under `id` has `0 ≤ maxHp`, every
`delta ≥ maxHp - hp` makes `adjustHP id delta` return, and store under `id`,
that record with hp equal to `maxHp`. -/
theorem adjustHP_caps_at_max (s : Store) (id delta : Int) (r : Minion)
    (hr : getMinion s id = .ok r) (hmax : 0 ≤ r.MaxHP) (hd : r.MaxHP - r.HP ≤ delta) :
    (adjustHP s id delta).2 = .ok { r with HP := r.MaxHP } ∧
      getMinion (adjustHP s id delta).1 id = .ok { r with HP := r.MaxHP } := by
  have hg := getMinion_updateWhereId s id
    (fun r => { r with HP := max 0 (min (r.HP + delta) r.MaxHP) }) (fun _ => rfl) r hr
  have hhp : max 0 (min (r.HP + delta) r.MaxHP) = r.MaxHP := by
    rw [min_eq_right (by linarith), max_eq_right hmax]
  simp only [hhp] at hg
  exact ⟨hg, hg⟩

theorem adjustHP_caps_at_max_witness :
    (adjustHP testStore 1 5).2 = .ok { testMinion with ID := 1, Active := true, HP := 15 } ∧
      getMinion (adjustHP testStore 1 5).1 1
        = .ok { testMinion with ID := 1, Active := true, HP := 15 } :=
  adjustHP_caps_at_max testStore 1 5 { testMinion with ID := 1, Active := true }
    (by decide) (by decide) (by decide)

/-- C5: when no stored record has the id, `adjustHP id delta` returns
`sql.ErrNoRows` for every `delta` and the table it leaves is the table it
found. -/
theorem adjustHP_not_found (s : Store) (id delta : Int) (h : ∀ r ∈ s.rows, r.ID ≠ id) :
    adjustHP s id delta = (s, .error .errNoRows) := by
  unfold adjustHP
  simp only [updateWhereId_absent s id _ h, getMinion_absent s id h]

theorem adjustHP_not_found_witness :
    adjustHP testStore 999 (-5) = (testStore, .error .errNoRows) :=
  adjustHP_not_found testStore 999 (-5) (by decide)

/-! ## Soft delete and listing -/

instance : IsTotal Minion (fun a b => a.ID ≤ b.ID) := ⟨fun a b => le_total a.ID b.ID⟩

instance : IsTrans Minion (fun a b => a.ID ≤ b.ID) := ⟨fun _ _ _ h1 h2 => le_trans h1 h2⟩

theorem mem_listActive (s : Store) (x : Minion) :
    x ∈ (s.rows.filter (fun r => r.Active)).insertionSort (fun a b => a.ID ≤ b.ID)
      ↔ x ∈ s.rows ∧ x.Active = true := by
  rw [List.mem_insertionSort, List.mem_filter]

/-- C6: for every id under which a record `r` is stored, `deleteMinion id`
succeeds, no record of `listActiveMinions` on the table it leaves has that id,
and `getMinion id` there returns `r` with `Active = false` and every other
field as in `r`. -/
theorem deleteMinion_hides_and_keeps (s : Store) (id : Int) (r : Minion)
    (hr : getMinion s id = .ok r) :
    (deleteMinion s id).2 = none ∧
      (∃ l, listActiveMinions (deleteMinion s id).1 = .ok l ∧ ∀ x ∈ l, x.ID ≠ id) ∧
      getMinion (deleteMinion s id).1 id = .ok { r with Active := false } := by
  refine ⟨rfl, ⟨_, rfl, ?_⟩, ?_⟩
  · intro x hx hid
    rw [mem_listActive] at hx
    obtain ⟨hmem, hact⟩ := hx
    simp only [deleteMinion, updateWhereId, List.mem_map] at hmem
    obtain ⟨y, _, hy⟩ := hmem
    by_cases h : y.ID = id
    · rw [if_pos h] at hy
      rw [← hy] at hact
      cases hact
    · rw [if_neg h] at hy
      rw [hy] at h
      exact h hid
  · exact getMinion_updateWhereId s id (fun r => { r with Active := false }) (fun _ => rfl) r hr

theorem deleteMinion_hides_and_keeps_witness :
    (deleteMinion testStore 1).2 = none ∧
      (∃ l, listActiveMinions (deleteMinion testStore 1).1 = .ok l ∧ ∀ x ∈ l, x.ID ≠ 1) ∧
      getMinion (deleteMinion testStore 1).1 1 = .ok { testMinion with ID := 1, Active := false } :=
  deleteMinion_hides_and_keeps testStore 1 { testMinion with ID := 1, Active := true } (by decide)

/-- C7: on a table that satisfies its primary key, `listActiveMinions` returns
without error a list that holds exactly the stored records with `Active = true`
(a permutation of them, so each once), in strictly ascending id order; it is
empty when no stored record is active. -/
theorem listActiveMinions_sorted_active (s : Store) (hk : s.Keyed) :
    ∃ l, listActiveMinions s = .ok l ∧
      l.Perm (s.rows.filter (fun r => r.Active)) ∧
      (∀ x, x ∈ l ↔ x ∈ s.rows ∧ x.Active = true) ∧
      l.Pairwise (fun a b => a.ID < b.ID) ∧
      ((∀ x ∈ s.rows, x.Active = false) → l = []) := by
  have hperm := List.perm_insertionSort (fun a b : Minion => a.ID ≤ b.ID)
    (s.rows.filter (fun r => r.Active))
  refine ⟨_, rfl, hperm, mem_listActive s, ?_, ?_⟩
  · have hsorted := List.sorted_insertionSort (fun a b : Minion => a.ID ≤ b.ID)
      (s.rows.filter (fun r => r.Active))
    have hnodup : ((s.rows.filter (fun r => r.Active)).map Minion.ID).Nodup :=
      List.Nodup.sublist (List.Sublist.map _ (List.filter_sublist _)) hk
    have hne := List.pairwise_map.mp ((hperm.map Minion.ID).nodup_iff.mpr hnodup)
    exact (List.Pairwise.and hsorted hne).imp (fun h => lt_of_le_of_ne h.1 h.2)
  · intro hnone
    have hfil : s.rows.filter (fun r => r.Active) = [] := by
      rw [List.filter_eq_nil_iff]
      intro x hx
      simp [hnone x hx]
    rw [hfil]
    rfl

theorem listActiveMinions_sorted_active_witness :
    ∃ l, listActiveMinions listStore = .ok l ∧
      l.Perm (listStore.rows.filter (fun r => r.Active)) ∧
      (∀ x, x ∈ l ↔ x ∈ listStore.rows ∧ x.Active = true) ∧
      l.Pairwise (fun a b => a.ID < b.ID) ∧
      ((∀ x ∈ listStore.rows, x.Active = false) → l = []) :=
  listActiveMinions_sorted_active listStore (by decide)

/-! ## Creation -/

theorem largestRowid_none (rows : List Minion) (h : largestRowid rows = none) : rows = [] := by
  cases rows with
  | nil => rfl
  | cons r rs =>
    simp only [largestRowid] at h
    split at h <;> cases h

theorem largestRowid_ge (rows : List Minion) :
    ∀ k, largestRowid rows = some k → ∀ r ∈ rows, r.ID ≤ k := by
  induction rows with
  | nil => intro k h; cases h
  | cons x xs ih =>
    intro k h r hr
    simp only [largestRowid] at h
    cases hl : largestRowid xs with
    | none =>
      rw [hl] at h
      cases h
      have hxs := largestRowid_none xs hl
      subst hxs
      simp only [List.mem_singleton] at hr
      rw [hr]
    | some j =>
      rw [hl] at h
      cases h
      rcases List.mem_cons.mp hr with hx | hx
      · rw [hx]; exact le_max_left _ _
      · exact le_trans (ih j hl r hx) (le_max_right _ _)

theorem newRowid_gt (s : Store) (v : Int) (h : newRowid s = .ok v) :
    ∀ r ∈ s.rows, r.ID < v := by
  intro r hr
  unfold newRowid at h
  cases hl : largestRowid s.rows with
  | none =>
    rw [largestRowid_none s.rows hl] at hr
    cases hr
  | some k =>
    rw [hl] at h
    simp only at h
    split at h
    · cases h
    · cases h
      have := largestRowid_ge s.rows k hl r hr
      exact lt_of_le_of_lt this (lt_of_lt_of_le (Int.lt_succ k) (le_max_left _ _))

theorem createMinion_ok (s : Store) (m : Minion) (h : (createMinion s m).2.2 = none) :
    ∃ v, newRowid s = .ok v ∧
      createMinion s m =
        ({ rows := s.rows ++
            [{ ID := v, Name := m.Name, HP := m.HP, MaxHP := m.MaxHP, AC := m.AC,
               Attack := m.Attack, Damage := m.Damage, Notes := m.Notes, Active := true }],
           seq := v },
         { m with ID := v }, none) := by
  unfold createMinion at h ⊢
  cases hn : newRowid s with
  | error e => rw [hn] at h; cases h
  | ok v => exact ⟨v, rfl, rfl⟩

theorem createMinion_succeeds (s : Store) (m : Minion)
    (hrows : ∀ r ∈ s.rows, r.ID < MAX_ROWID) (hseq : s.seq ≠ MAX_ROWID) :
    (createMinion s m).2.2 = none := by
  unfold createMinion newRowid
  cases hl : largestRowid s.rows with
  | none => simp [hseq]
  | some k =>
    have hk : ¬ MAX_ROWID ≤ k := by
      cases hrs : s.rows with
      | nil => rw [hrs] at hl; cases hl
      | cons x xs =>
        have hmem : ∃ r ∈ s.rows, r.ID = k := by
          clear hrows hseq hrs
          generalize s.rows = rows at hl
          induction rows generalizing k with
          | nil => cases hl
          | cons y ys ih =>
            simp only [largestRowid] at hl
            cases hys : largestRowid ys with
            | none => rw [hys] at hl; cases hl; exact ⟨y, List.mem_cons_self _ _, rfl⟩
            | some j =>
              rw [hys] at hl
              cases hl
              rcases le_total y.ID j with hle | hle
              · obtain ⟨r, hr, hrj⟩ := ih j hys
                exact ⟨r, List.mem_cons_of_mem _ hr, by rw [hrj, max_eq_right hle]⟩
              · exact ⟨y, List.mem_cons_self _ _, by rw [max_eq_left hle]⟩
        obtain ⟨r, hr, hrk⟩ := hmem
        have := hrows r hr
        rw [hrk] at this
        exact not_le.mpr this
    simp [hk, hseq]

theorem getMinion_append_new (rows : List Minion) (seq : Int) (n : Minion)
    (hfresh : ∀ r ∈ rows, r.ID ≠ n.ID) :
    getMinion { rows := rows ++ [n], seq := seq } n.ID = .ok n := by
  unfold getMinion
  have hnone : rows.find? (fun r => decide (r.ID = n.ID)) = none := by
    rw [List.find?_eq_none]
    intro x hx
    simpa using hfresh x hx
  simp [List.find?_append, hnone]

/-- C8: whenever `createMinion r` succeeds, `getMinion` of the id it wrote into
the caller's record returns, on the table it leaves, the record with that id,
with name, hp, maxHp, ac, attack, damage and notes of `r`, and with
`Active = true`, whatever `r.Active` was. -/
theorem createMinion_getMinion_roundtrip (s : Store) (r : Minion)
    (h : (createMinion s r).2.2 = none) :
    getMinion (createMinion s r).1 (createMinion s r).2.1.ID =
      .ok { ID := (createMinion s r).2.1.ID, Name := r.Name, HP := r.HP, MaxHP := r.MaxHP,
            AC := r.AC, Attack := r.Attack, Damage := r.Damage, Notes := r.Notes,
            Active := true } := by
  obtain ⟨v, hv, hc⟩ := createMinion_ok s r h
  rw [hc]
  exact getMinion_append_new s.rows v
    { ID := v, Name := r.Name, HP := r.HP, MaxHP := r.MaxHP, AC := r.AC,
      Attack := r.Attack, Damage := r.Damage, Notes := r.Notes, Active := true }
    (fun x hx => ne_of_lt (newRowid_gt s v hv x hx))

theorem createMinion_getMinion_roundtrip_witness :
    getMinion (createMinion listStore goblin).1 (createMinion listStore goblin).2.1.ID =
      .ok { ID := (createMinion listStore goblin).2.1.ID, Name := goblin.Name, HP := goblin.HP,
            MaxHP := goblin.MaxHP, AC := goblin.AC, Attack := goblin.Attack,
            Damage := goblin.Damage, Notes := goblin.Notes, Active := true } :=
  createMinion_getMinion_roundtrip listStore goblin (by decide)

theorem getMinion_append_other (rows : List Minion) (seq seq' : Int) (n : Minion) (id : Int)
    (hid : id ≠ n.ID) :
    getMinion { rows := rows ++ [n], seq := seq' } id = getMinion { rows := rows, seq := seq } id := by
  unfold getMinion
  have hn : ¬ n.ID = id := fun h => hid h.symm
  simp [List.find?_append, List.find?, hn]

/-- C9: whenever `createMinion r` succeeds, the id it assigns differs from the
id of every record stored before; the table it leaves and the record it hands
back do not depend on `r.ID`; the table is the old rows followed by one new
row of that id, `getMinion` of every other id answers as before, and a table
that satisfied its primary key still does. -/
theorem createMinion_fresh_id (s : Store) (r : Minion) (h : (createMinion s r).2.2 = none) :
    (∀ x ∈ s.rows, x.ID ≠ (createMinion s r).2.1.ID) ∧
      (∀ k, createMinion s { r with ID := k } = createMinion s r) ∧
      (∃ n, (createMinion s r).1.rows = s.rows ++ [n] ∧ n.ID = (createMinion s r).2.1.ID) ∧
      (∀ id, id ≠ (createMinion s r).2.1.ID →
        getMinion (createMinion s r).1 id = getMinion s id) ∧
      (s.Keyed → (createMinion s r).1.Keyed) := by
  obtain ⟨v, hv, hc⟩ := createMinion_ok s r h
  have hfresh : ∀ x ∈ s.rows, x.ID ≠ v := fun x hx => ne_of_lt (newRowid_gt s v hv x hx)
  refine ⟨?_, ?_, ?_, ?_, ?_⟩
  · rw [hc]
    exact hfresh
  · intro k
    unfold createMinion
    rw [hv]
  · rw [hc]
    exact ⟨_, rfl, rfl⟩
  · rw [hc]
    intro id hid
    exact getMinion_append_other s.rows s.seq v _ id hid
  · rw [hc]
    intro hk
    unfold Store.Keyed at hk ⊢
    simp only [List.map_append, List.map_cons, List.map_nil]
    rw [List.nodup_append]
    refine ⟨hk, List.nodup_singleton v, ?_⟩
    intro a ha hb
    rw [List.mem_singleton] at hb
    obtain ⟨x, hx, hxa⟩ := List.mem_map.mp ha
    exact hfresh x hx (hxa.trans hb)

theorem createMinion_fresh_id_witness :
    (∀ x ∈ listStore.rows, x.ID ≠ (createMinion listStore goblin).2.1.ID) ∧
      (∀ k, createMinion listStore { goblin with ID := k } = createMinion listStore goblin) ∧
      (∃ n, (createMinion listStore goblin).1.rows = listStore.rows ++ [n] ∧
        n.ID = (createMinion listStore goblin).2.1.ID) ∧
      (∀ id, id ≠ (createMinion listStore goblin).2.1.ID →
        getMinion (createMinion listStore goblin).1 id = getMinion listStore id) ∧
      (listStore.Keyed → (createMinion listStore goblin).1.Keyed) :=
  createMinion_fresh_id listStore goblin (by decide)

theorem handleCreate_page_inactive (atoi : String → Int) (s : Store) (form : String → String)
    (m : Minion) (t : String) (h : (handleCreate atoi s form).2 = .page t m) :
    t = "minion-row" ∧ m.Active = false := by
  unfold handleCreate createMinion at h
  simp only at h
  cases hn : newRowid s with
  | error e => rw [hn] at h; cases h
  | ok v =>
    rw [hn] at h
    simp only [Response.page.injEq] at h
    obtain ⟨ht, hm⟩ := h
    exact ⟨ht.symm, by rw [← hm]⟩

/-- C10 (evaluated where the code departs from it): `createMinion` on the empty
table with the record `handleCreate` builds from the form of `TestHandleCreate`
succeeds with id 1 and leaves the caller's record with `Active = false`, while
`getMinion 1` returns the same fields with `Active = true`; the two records
differ. -/
theorem createMinion_hands_back_inactive :
    (createMinion emptyStore goblin).2 = ({ goblin with ID := 1, Active := false }, none) ∧
      getMinion (createMinion emptyStore goblin).1 1
        = .ok { goblin with ID := 1, Active := true } ∧
      getMinion (createMinion emptyStore goblin).1 1
        ≠ .ok (createMinion emptyStore goblin).2.1 := by
  decide

/-! ## Replacement, lookup and the life cycle of a record -/

theorem getMinion_updateWhereId_any (s : Store) (j id : Int) (set : Minion → Minion)
    (hset : ∀ r, (set r).ID = r.ID) :
    getMinion (updateWhereId s j set) id =
      match getMinion s id with
      | .ok r => .ok (if r.ID = j then set r else r)
      | .error e => .error e := by
  unfold getMinion updateWhereId
  simp only [List.find?_map]
  have hp : ((fun r : Minion => decide (r.ID = id)) ∘ fun r => if r.ID = j then set r else r)
      = fun r : Minion => decide (r.ID = id) := by
    funext x
    by_cases h : x.ID = j
    · simp [h, hset]
    · simp [h]
  rw [hp]
  cases s.rows.find? (fun r => decide (r.ID = id)) <;> rfl

theorem getMinion_updateWhereId_other (s : Store) (j id : Int) (set : Minion → Minion)
    (hset : ∀ r, (set r).ID = r.ID) (hne : id ≠ j) :
    getMinion (updateWhereId s j set) id = getMinion s id := by
  rw [getMinion_updateWhereId_any s j id set hset]
  cases hg : getMinion s id with
  | error e => rfl
  | ok r =>
    have hid := (getMinion_ok_mem s id r hg).2
    have : ¬ r.ID = j := by rw [hid]; exact hne
    simp [this]

/-- C11: when `r.ID` is the id of a stored record, `updateMinion r` succeeds,
`getMinion r.ID` on the table it leaves returns exactly `r` (name, hp, maxHp,
ac, attack, damage, notes and active as given, hp not clamped), and
`getMinion` of every other id answers as before. -/
theorem updateMinion_overwrites (s : Store) (r old : Minion)
    (h : getMinion s r.ID = .ok old) :
    (updateMinion s r).2 = none ∧
      getMinion (updateMinion s r).1 r.ID = .ok r ∧
      ∀ id, id ≠ r.ID → getMinion (updateMinion s r).1 id = getMinion s id := by
  refine ⟨rfl, ?_, ?_⟩
  · have hid := (getMinion_ok_mem s r.ID old h).2
    have hg := getMinion_updateWhereId s r.ID
      (fun x => { x with Name := r.Name, HP := r.HP, MaxHP := r.MaxHP, AC := r.AC,
                         Attack := r.Attack, Damage := r.Damage, Notes := r.Notes,
                         Active := r.Active }) (fun _ => rfl) old h
    simp only [updateMinion]
    rw [hg]
    simp only [hid]
  · intro id hne
    exact getMinion_updateWhereId_other s r.ID id _ (fun _ => rfl) hne

theorem updateMinion_overwrites_witness :
    (updateMinion testStore { goblin with ID := 1, HP := 20, MaxHP := 10 }).2 = none ∧
      getMinion (updateMinion testStore { goblin with ID := 1, HP := 20, MaxHP := 10 }).1 1
        = .ok { goblin with ID := 1, HP := 20, MaxHP := 10 } ∧
      ∀ id, id ≠ 1 →
        getMinion (updateMinion testStore { goblin with ID := 1, HP := 20, MaxHP := 10 }).1 id
          = getMinion testStore id :=
  updateMinion_overwrites testStore { goblin with ID := 1, HP := 20, MaxHP := 10 }
    { testMinion with ID := 1, Active := true } (by decide)

/-- C12: `getMinion id` fails, with `sql.ErrNoRows`, exactly when no stored
record has the id, and it has no other error; on a table that satisfies its
primary key every stored record, active or not, is what `getMinion` of its id
returns. -/
theorem getMinion_not_found_iff (s : Store) (id : Int) :
    (getMinion s id = .error .errNoRows ↔ ∀ r ∈ s.rows, r.ID ≠ id) ∧
      (∀ e, getMinion s id = .error e → e = .errNoRows) ∧
      (s.Keyed → ∀ r ∈ s.rows, r.ID = id → getMinion s id = .ok r) := by
  refine ⟨⟨?_, getMinion_absent s id⟩, ?_, ?_⟩
  · intro herr r hr hid
    have hfind : ∃ x, s.rows.find? (fun r => decide (r.ID = id)) = some x := by
      cases hf : s.rows.find? (fun r => decide (r.ID = id)) with
      | some x => exact ⟨x, rfl⟩
      | none =>
        rw [List.find?_eq_none] at hf
        exact absurd (by simpa using hid) (hf r hr)
    obtain ⟨x, hx⟩ := hfind
    unfold getMinion at herr
    rw [hx] at herr
    cases herr
  · intro e he
    unfold getMinion at he
    cases hf : s.rows.find? (fun r => decide (r.ID = id)) with
    | some x => rw [hf] at he; cases he
    | none => rw [hf] at he; cases he; rfl
  · intro hk r hr hid
    rw [← hid]
    exact getMinion_of_mem s hk r hr

theorem getMinion_not_found_iff_witness :
    getMinion listStore 2 =
      .ok { testMinion with ID := 2, Name := "Inactive", HP := 5, MaxHP := 5, Active := false } :=
  (getMinion_not_found_iff listStore 2).2.2 (by decide)
    { testMinion with ID := 2, Name := "Inactive", HP := 5, MaxHP := 5, Active := false }
    (by decide) rfl

theorem getMinion_createMinion_old (s : Store) (m : Minion) (id : Int) (r : Minion)
    (hr : getMinion s id = .ok r) : getMinion (createMinion s m).1 id = .ok r := by
  unfold createMinion
  cases hn : newRowid s with
  | error e => exact hr
  | ok v =>
    have hmem := getMinion_ok_mem s id r hr
    have hlt := newRowid_gt s v hn r hmem.1
    rw [hmem.2] at hlt
    simp only
    rw [getMinion_append_other s.rows s.seq v _ id (ne_of_lt hlt)]
    exact hr

/-- C13: a record stored under `id` is still stored under `id` after
`createMinion`, `deleteMinion`, `adjustHP` and `updateMinion` with any
arguments.  `createMinion` leaves it as it is, `adjustHP` leaves its active
flag as it is, `deleteMinion` leaves an inactive record inactive, and
`updateMinion m` turns an inactive record active only when `m.ID = id` and
`m.Active = true`, which it does for the record itself with `Active = true`. -/
theorem inactive_is_terminal (s : Store) (id : Int) (r : Minion)
    (hr : getMinion s id = .ok r) :
    (∀ m, getMinion (createMinion s m).1 id = .ok r) ∧
      (∀ j, ∃ r', getMinion (deleteMinion s j).1 id = .ok r' ∧
        (r.Active = false → r'.Active = false)) ∧
      (∀ j d, ∃ r', getMinion (adjustHP s j d).1 id = .ok r' ∧ r'.Active = r.Active) ∧
      (∀ m, ∃ r', getMinion (updateMinion s m).1 id = .ok r' ∧
        (r.Active = false → r'.Active = true → m.ID = id ∧ m.Active = true)) ∧
      getMinion (updateMinion s { r with Active := true }).1 id = .ok { r with Active := true } := by
  have hid := (getMinion_ok_mem s id r hr).2
  refine ⟨fun m => getMinion_createMinion_old s m id r hr, ?_, ?_, ?_, ?_⟩
  · intro j
    refine ⟨if r.ID = j then { r with Active := false } else r, ?_, ?_⟩
    · simp only [deleteMinion]
      rw [getMinion_updateWhereId_any s j id (fun x => { x with Active := false })
        (fun _ => rfl), hr]
    · intro hin
      by_cases h : r.ID = j
      · simp [h]
      · simp [h, hin]
  · intro j d
    refine ⟨if r.ID = j then { r with HP := max 0 (min (r.HP + d) r.MaxHP) } else r, ?_, ?_⟩
    · simp only [adjustHP]
      rw [getMinion_updateWhereId_any s j id
        (fun x => { x with HP := max 0 (min (x.HP + d) x.MaxHP) }) (fun _ => rfl), hr]
    · by_cases h : r.ID = j
      · simp [h]
      · simp [h]
  · intro m
    refine ⟨if r.ID = m.ID then
        { r with Name := m.Name, HP := m.HP, MaxHP := m.MaxHP, AC := m.AC, Attack := m.Attack,
                 Damage := m.Damage, Notes := m.Notes, Active := m.Active } else r, ?_, ?_⟩
    · simp only [updateMinion]
      rw [getMinion_updateWhereId_any s m.ID id
        (fun x => { x with Name := m.Name, HP := m.HP, MaxHP := m.MaxHP, AC := m.AC,
                           Attack := m.Attack, Damage := m.Damage, Notes := m.Notes,
                           Active := m.Active }) (fun _ => rfl), hr]
    · intro hin hact
      by_cases h : r.ID = m.ID
      · simp only [h, if_true] at hact
        exact ⟨h.symm.trans hid, hact⟩
      · simp only [h, if_false] at hact
        rw [hin] at hact
        cases hact
  · subst hid
    exact getMinion_updateWhereId s r.ID
      (fun x => { x with Name := r.Name, HP := r.HP, MaxHP := r.MaxHP, AC := r.AC,
                         Attack := r.Attack, Damage := r.Damage, Notes := r.Notes,
                         Active := true }) (fun _ => rfl) r hr

theorem inactive_is_terminal_witness :
    (∀ m, getMinion (createMinion listStore m).1 2
        = .ok { testMinion with ID := 2, Name := "Inactive", HP := 5, MaxHP := 5 }) ∧
      (∀ j, ∃ r', getMinion (deleteMinion listStore j).1 2 = .ok r' ∧
        ((false : Bool) = false → r'.Active = false)) ∧
      (∀ j d, ∃ r', getMinion (adjustHP listStore j d).1 2 = .ok r' ∧ r'.Active = false) ∧
      (∀ m, ∃ r', getMinion (updateMinion listStore m).1 2 = .ok r' ∧
        ((false : Bool) = false → r'.Active = true → m.ID = 2 ∧ m.Active = true)) ∧
      getMinion (updateMinion listStore
          { testMinion with ID := 2, Name := "Inactive", HP := 5, MaxHP := 5, Active := true }).1 2
        = .ok { testMinion with ID := 2, Name := "Inactive", HP := 5, MaxHP := 5, Active := true } :=
  inactive_is_terminal listStore 2
    { testMinion with ID := 2, Name := "Inactive", HP := 5, MaxHP := 5 } (by decide)

/-! ## Frame of the hit-point adjustment -/

/-- C16: `adjustHP id delta` leaves the sequence counter and the number and
order of rows as they are; every row keeps its id, name, maxHp, ac, attack,
damage, notes and active flag, a row of another id is kept whole, and
`getMinion` of every other id answers as before. -/
theorem adjustHP_frame (s : Store) (id delta : Int) :
    (adjustHP s id delta).1.seq = s.seq ∧
      List.Forall₂
        (fun a b : Minion => b.ID = a.ID ∧ b.Name = a.Name ∧ b.MaxHP = a.MaxHP ∧ b.AC = a.AC ∧
          b.Attack = a.Attack ∧ b.Damage = a.Damage ∧ b.Notes = a.Notes ∧
          b.Active = a.Active ∧ (a.ID ≠ id → b = a))
        s.rows (adjustHP s id delta).1.rows ∧
      ∀ j, j ≠ id → getMinion (adjustHP s id delta).1 j = getMinion s j := by
  refine ⟨rfl, ?_, ?_⟩
  · simp only [adjustHP, updateWhereId]
    rw [List.forall₂_map_right_iff, List.forall₂_same]
    intro x _
    by_cases h : x.ID = id
    · simp [h]
    · simp [h]
  · intro j hne
    exact getMinion_updateWhereId_other s id j _ (fun _ => rfl) hne

theorem adjustHP_frame_witness :
    (adjustHP listStore 1 (-3)).1.seq = 3 ∧
      List.Forall₂
        (fun a b : Minion => b.ID = a.ID ∧ b.Name = a.Name ∧ b.MaxHP = a.MaxHP ∧ b.AC = a.AC ∧
          b.Attack = a.Attack ∧ b.Damage = a.Damage ∧ b.Notes = a.Notes ∧
          b.Active = a.Active ∧ (a.ID ≠ 1 → b = a))
        listStore.rows (adjustHP listStore 1 (-3)).1.rows ∧
      ∀ j, j ≠ 1 → getMinion (adjustHP listStore 1 (-3)).1 j = getMinion listStore j :=
  adjustHP_frame listStore 1 (-3)

/-! ## Handlers that address a minion by id -/

theorem adjustHP_not_found_aux (s : Store) (id delta : Int) (h : ∀ r ∈ s.rows, r.ID ≠ id) :
    adjustHP s id delta = (s, .error .errNoRows) := by
  unfold adjustHP
  simp only [updateWhereId_absent s id _ h, getMinion_absent s id h]

theorem handleHeal_store (s : Store) (pathId : String) (form : String → String) :
    (handleHeal s pathId form).1
      = (adjustHP s (ParseInt pathId).1 (Atoi (form "amount")).1).1 := by
  unfold handleHeal
  simp only
  cases (adjustHP s (ParseInt pathId).1 (Atoi (form "amount")).1) with
  | mk s' res => cases res <;> rfl

theorem handleDmg_store (s : Store) (pathId : String) (form : String → String) :
    (handleDmg s pathId form).1
      = (adjustHP s (ParseInt pathId).1 (wrapInt64 (-(Atoi (form "amount")).1))).1 := by
  unfold handleDmg
  simp only
  cases (adjustHP s (ParseInt pathId).1 (wrapInt64 (-(Atoi (form "amount")).1))) with
  | mk s' res => cases res <;> rfl

theorem handlers_absent_404 (s : Store) (pathId : String) (form : String → String)
    (h : ∀ r ∈ s.rows, r.ID ≠ (ParseInt pathId).1) :
    (handleEditForm s pathId).2.status = 404 ∧ (handleUpdate s pathId form).2.status = 404 ∧
      (handleView s pathId).2.status = 404 ∧ (handleHPAdjustForm s pathId).2.status = 404 ∧
      (handleHPCancel s pathId).2.status = 404 := by
  have hg := getMinion_absent s (ParseInt pathId).1 h
  simp [handleEditForm, handleUpdate, handleView, handleHPAdjustForm, handleHPCancel, hg,
    Response.status]

theorem heal_dmg_absent_500 (s : Store) (pathId : String) (form : String → String)
    (h : ∀ r ∈ s.rows, r.ID ≠ (ParseInt pathId).1) :
    handleHeal s pathId form = (s, .failErr 500 .errNoRows) ∧
      handleDmg s pathId form = (s, .failErr 500 .errNoRows) := by
  simp [handleHeal, handleDmg, adjustHP_not_found_aux s _ _ h]

theorem Atoi_range (x : String) : minInt64 ≤ (Atoi x).1 ∧ (Atoi x).1 ≤ maxInt64 := by
  unfold Atoi ParseInt
  cases x.toList with
  | nil => simp [minInt64, maxInt64]
  | cons c cs =>
    simp only
    generalize ParseUint (if c = '+' ∨ c = '-' then cs else c :: cs) = res
    split_ifs with h0 h1 h2 h3
    · simp [minInt64, maxInt64]
    · simp [minInt64, maxInt64]
    · simp [minInt64, maxInt64]
    · simp only [minInt64, maxInt64]
      simp only [h3, true_and, not_lt] at h2
      omega
    · simp only [minInt64, maxInt64]
      have h3' : (!decide (c = '-')) = true := by simpa using h3
      simp only [h3', true_and, not_le] at h1
      omega

theorem Atoi_syntax_zero (x : String) (h : (Atoi x).2 = some .errSyntax) : (Atoi x).1 = 0 := by
  unfold Atoi ParseInt at h ⊢
  cases hx : x.toList with
  | nil => rfl
  | cons c cs =>
    rw [hx] at h
    simp only at h ⊢
    generalize ParseUint (if c = '+' ∨ c = '-' then cs else c :: cs) = res at h ⊢
    split_ifs at h ⊢ <;> first | rfl | cases h

theorem Atoi_examples :
    Atoi "3" = (3, none) ∧ Atoi "-4" = (-4, none) ∧ Atoi "+7" = (7, none) ∧
      Atoi "" = (0, some .errSyntax) ∧ Atoi "-" = (0, some .errSyntax) ∧
      Atoi "abc" = (0, some .errSyntax) ∧ Atoi "1_000" = (0, some .errSyntax) ∧
      Atoi "9223372036854775808" = (maxInt64, some .errRange) ∧
      Atoi "-9223372036854775809" = (minInt64, some .errRange) ∧
      Atoi "9999999999999999999x" = (0, some .errSyntax) ∧
      Atoi "18446744073709551615z" = (0, some .errSyntax) ∧
      Atoi "99999999999999999999x" = (maxInt64, some .errRange) ∧
      Atoi "-99999999999999999999x" = (minInt64, some .errRange) ∧
      Atoi "18446744073709551616z" = (maxInt64, some .errRange) := by
  decide

theorem handleHeal_overlong_amount_example :
    (getMinion (handleHeal testStore "1" (amountForm "99999999999999999999x")).1 1).map Minion.HP
      = .ok 15 := by
  decide

theorem wrapInt64_neg (v : Int) (hlo : minInt64 < v) (hhi : v ≤ maxInt64) :
    wrapInt64 (-v) = -v := by
  unfold wrapInt64
  unfold minInt64 at hlo
  unfold maxInt64 at hhi
  omega

/-- C14 (evaluated where the code departs from it): on the empty table of
`TestHandle404s`, where no minion has id 999, `handleHeal` and `handleDmg`
answer with status 500 and the text of `sql.ErrNoRows`, while `handleView`
answers the same request path with 404. -/
theorem handleHeal_handleDmg_absent_status :
    getMinion emptyStore 999 = .error .errNoRows ∧
      handleHeal emptyStore "999" (amountForm "3") = (emptyStore, .failErr 500 .errNoRows) ∧
      handleDmg emptyStore "999" (amountForm "3") = (emptyStore, .failErr 500 .errNoRows) ∧
      handleView emptyStore "999" = (emptyStore, .failText 404 "not found") := by
  decide

/-- C15 (as stated, refuted): on the record with hp 10 of at most 15, the
posted amount `-9223372036854775808` parses without error to -2^63, for which
the claim has damage end at `max 0 (min (10 - (-2^63)) 15) = 15`, but
`handleDmg` leaves hp 0; and the posted amount `99999999999999999999`, which
`Atoi` rejects with `ErrRange`, is applied by `handleHeal` as 2^63-1 and not as
0: hp ends at 15, not at 10. -/
theorem handleDmg_handleHeal_extreme_amounts :
    Atoi "-9223372036854775808" = (-9223372036854775808, none) ∧
      (getMinion testStore 1).map Minion.HP = .ok 10 ∧
      (getMinion (handleDmg testStore "1" (amountForm "-9223372036854775808")).1 1).map Minion.HP
        = .ok 0 ∧
      max 0 (min (10 - (-9223372036854775808)) 15) = (15 : Int) ∧
      Atoi "99999999999999999999" = (9223372036854775807, some .errRange) ∧
      (getMinion (handleHeal testStore "1" (amountForm "99999999999999999999")).1 1).map Minion.HP
        = .ok 15 ∧
      max 0 (min (10 + 0) 15) = (10 : Int) := by
  decide

/-- C15 (amended): for a minion stored under the id of the path, an amount on
which `Atoi` succeeds with value `a` makes `handleHeal` apply `adjustHP id a`,
leaving hp at `max 0 (min (hp + a) maxHp)`, and, when `a` is not -2^63, makes
`handleDmg` apply `adjustHP id (-a)`, leaving hp at `max 0 (min (hp - a) maxHp)`;
an amount on which `Atoi` returns `ErrSyntax` is applied as 0 by both.  An
amount on which `Atoi` returns `ErrRange` is not covered. -/
theorem handleHeal_handleDmg_amount (s : Store) (pathId : String) (form : String → String)
    (r : Minion) (hr : getMinion s (ParseInt pathId).1 = .ok r) :
    (∀ a, Atoi (form "amount") = (a, none) →
      (handleHeal s pathId form).1 = (adjustHP s (ParseInt pathId).1 a).1 ∧
      getMinion (handleHeal s pathId form).1 (ParseInt pathId).1
        = .ok { r with HP := max 0 (min (r.HP + a) r.MaxHP) } ∧
      (a ≠ minInt64 →
        (handleDmg s pathId form).1 = (adjustHP s (ParseInt pathId).1 (-a)).1 ∧
        getMinion (handleDmg s pathId form).1 (ParseInt pathId).1
          = .ok { r with HP := max 0 (min (r.HP - a) r.MaxHP) })) ∧
      ((Atoi (form "amount")).2 = some .errSyntax →
        (handleHeal s pathId form).1 = (adjustHP s (ParseInt pathId).1 0).1 ∧
        (handleDmg s pathId form).1 = (adjustHP s (ParseInt pathId).1 0).1) := by
  have hclamp : ∀ d, getMinion (adjustHP s (ParseInt pathId).1 d).1 (ParseInt pathId).1
      = .ok { r with HP := max 0 (min (r.HP + d) r.MaxHP) } := fun d =>
    getMinion_updateWhereId s (ParseInt pathId).1
      (fun x => { x with HP := max 0 (min (x.HP + d) x.MaxHP) }) (fun _ => rfl) r hr
  refine ⟨?_, ?_⟩
  · intro a ha
    have hv : (Atoi (form "amount")).1 = a := by rw [ha]
    have hrange := Atoi_range (form "amount")
    rw [hv] at hrange
    refine ⟨?_, ?_, ?_⟩
    · rw [handleHeal_store, hv]
    · rw [handleHeal_store, hv]
      exact hclamp a
    · intro hne
      have hw : wrapInt64 (-a) = -a :=
        wrapInt64_neg a (lt_of_le_of_ne hrange.1 (Ne.symm hne)) hrange.2
      refine ⟨?_, ?_⟩
      · rw [handleDmg_store, hv, hw]
      · rw [handleDmg_store, hv, hw, sub_eq_add_neg]
        exact hclamp (-a)
  · intro hsyn
    have hv := Atoi_syntax_zero (form "amount") hsyn
    refine ⟨?_, ?_⟩
    · rw [handleHeal_store, hv]
    · rw [handleDmg_store, hv]
      rfl

theorem handleHeal_handleDmg_amount_witness :
    getMinion (handleHeal testStore "1" (amountForm "4")).1 1
        = .ok { testMinion with ID := 1, Active := true, HP := 14 } ∧
      getMinion (handleDmg testStore "1" (amountForm "4")).1 1
        = .ok { testMinion with ID := 1, Active := true, HP := 6 } :=
  have h := (handleHeal_handleDmg_amount testStore "1" (amountForm "4")
    { testMinion with ID := 1, Active := true } (by decide)).1 4 (by decide)
  ⟨h.2.1, (h.2.2 (by decide)).2⟩

end MinionTracker
